import Mathlib

/-!
Verification of the batch-partitioning / concurrent-dispatch core of
`data_processor.py` (class `DataProcessor`).

Modeling conventions:
- a pandas `DataFrame` is the list of its rows (abstract row type `ρ`);
- the backend capability `rd.get_data(universe, fields, parameters)` is an abstract
  `Fetch` whose outcome may differ per retry attempt; `Except.error` models the call
  raising an exception;
- `parameters` has an abstract type `π`; the Python default argument `{}` is the
  `Inhabited.default` element of `π`;
- `executor.map` yields per-chunk results in submission order (documented behavior of
  `concurrent.futures.Executor.map`), so each fan-out is an in-order map over the
  chunk list folded with `pd.concat`;
- `ProcessPoolExecutor(max_workers = w)` raises `ValueError` for `w <= 0`, modeled as
  an `Except.error` result of the enclosing method; session open/close only touches
  external session state and never the returned data, so it is not modeled.
-/

namespace ParallelProg

/-- A pandas DataFrame, modeled as the list of its rows. -/
abbrev Table (ρ : Type) : Type := List ρ

/-- Models `pd.DataFrame()`, the empty table. -/
def emptyTable (ρ : Type) : Table ρ := []

/-- The aggregation loop `output_df = pd.concat([output_df, result], ignore_index=True)`
folded over the per-chunk results of `executor.map`, starting from `pd.DataFrame()`. -/
def aggregate {ρ : Type} (results : List (Table ρ)) : Table ρ :=
  results.foldl (fun acc r => acc ++ r) []

/-- The `rd.get_data(universe, fields, parameters)` backend capability.  The first
argument is the attempt index within one `internal_get_data` call, so distinct retry
attempts may succeed or fail independently. -/
structure Fetch (π ρ : Type) where
  call : Nat → List String → List String → π → Except String (Table ρ)

/-- The backend call raised, i.e. the `except` branch of the retry loop is taken. -/
def isFail {α : Type} (e : Except String α) : Bool :=
  match e with
  | Except.ok _ => false
  | Except.error _ => true

/-- `DataProcessor.NB_ITEMS_THRESHOLD`, the default maximum number of items per batch. -/
def NB_ITEMS_THRESHOLD : Int := 800

/-- `DataProcessor.CHILD_PROCESSES`, the default child-process count. -/
def CHILD_PROCESSES : Int := 2

/-- The initial value of `nb_relaunch_request` in `internal_get_data`. -/
def nb_relaunch_request : Nat := 5

/-- The fixed backoff `time.sleep(0.2)` performed after each failed attempt, in
milliseconds. -/
def backoffMillis : Nat := 200

/-- Observable outcome of the retry loop of `internal_get_data`: the local `res`, the
number of backend calls made, the number of backoff sleeps performed, and the final
value of the `succeed` flag. -/
structure RetryTrace (ρ : Type) where
  res : Table ρ
  attempts : Nat
  backoffs : Nat
  succeed : Bool

/-- The loop of `internal_get_data`:
`while (succeed is False and nb_relaunch_request > 0)` — try `res = rd.get_data(...)`;
on exception decrement the budget and `time.sleep(0.2)`; otherwise set `succeed = True`.
Arguments: the attempt index, the remaining budget, and the current `res`. -/
def retryGo {ρ : Type} (call : Nat → Except String (Table ρ)) :
    Nat → Nat → Table ρ → RetryTrace ρ
  | _, 0, res => ⟨res, 0, 0, false⟩
  | k, nb + 1, res =>
    match call k with
    | Except.ok v => ⟨v, 1, 0, true⟩
    | Except.error _ =>
      let t := retryGo call (k + 1) nb res
      ⟨t.res, t.attempts + 1, t.backoffs + 1, t.succeed⟩

/-- The retry loop of `internal_get_data`, with its observable trace: budget
`nb_relaunch_request = 5`, initial `res = pd.DataFrame()`. -/
def internal_trace {π ρ : Type} (fetch : Fetch π ρ) (univ fields : List String)
    (parameters : π) : RetryTrace ρ :=
  retryGo (fun k => fetch.call k univ fields parameters) 0 nb_relaunch_request []

/-- `DataProcessor.internal_get_data`: runs the retry loop and returns the final `res`.
`open_the_session` only opens/closes the external session and never affects the data
returned; the enclosing `try` of the Python code can only be entered by session or
logging failures, which are outside the modeled capability. -/
def internal_get_data {π ρ : Type} (fetch : Fetch π ρ) (univ fields : List String)
    (parameters : π) (open_the_session : Bool) : Table ρ :=
  (internal_trace fetch univ fields parameters).res

/-- `math.ceil(l / w)` for natural `l` and positive `w`. -/
def ceil_div (l w : Nat) : Nat := (l + w - 1) / w

/-- `DataProcessor.__split_list_into_chunks(items, nb_chunks)`:
`n = max(1, nb_chunks)`; `list(items[i:i+n] for i in range(0, len(items), n))`.
`range(0, len(items), n)` enumerates `ceil(len(items) / n)` start offsets. -/
def split_list_into_chunks {α : Type} (items : List α) (nb_chunks : Int) : List (List α) :=
  let n : Nat := (max 1 nb_chunks).toNat
  (List.range' 0 ((items.length + n - 1) / n) n).map (fun i => (items.drop i).take n)

/-- `max(math.ceil(len(universe) / executor._max_workers), nb_items_threshold)`: the
effective chunk size computed in `threadPoolExecutor_get_data`, and equally (as
`max(best_nb_items_threshold, nb_items_threshold)`) in `processPoolExecutor_get_data`
and `hybridPoolExecutor_get_data`. -/
def best_nb_items_threshold (lenU workers : Nat) (t : Int) : Int :=
  max (Int.ofNat (ceil_div lenU workers)) t

/-- `DataProcessor.threadPoolExecutor_get_data`.  `thread_workers` models the pool size
`executor._max_workers` of `ThreadPoolExecutor(max_workers = None)`, a platform-derived
value that is always at least 1.  The exception handler around the dispatch loop is
unreachable here because `internal_get_data` never raises. -/
def threadPoolExecutor_get_data {π ρ : Type} (fetch : Fetch π ρ) (thread_workers : Nat)
    (univ fields : List String) (parameters : π) (nb_items_threshold : Int) : Table ρ :=
  let universe_list := split_list_into_chunks univ
    (best_nb_items_threshold univ.length thread_workers nb_items_threshold)
  aggregate (universe_list.map (fun chunk =>
    internal_get_data fetch chunk fields parameters false))

/-- `DataProcessor.processPoolExecutor_get_data`.
`ProcessPoolExecutor(max_workers = nb_workers)` raises
`ValueError("max_workers must be greater than 0")` when `nb_workers <= 0` (modeled as
`Except.error`); otherwise `executor._max_workers = nb_workers`.  When partitioning
yields fewer than 2 chunks the code returns
`self.internal_get_data(universe=universe, fields=fields)`: `parameters` is not
forwarded, so the fallback runs with the Python default `parameters = {}`, modeled by
`default`. -/
def processPoolExecutor_get_data {π ρ : Type} [Inhabited π] (fetch : Fetch π ρ)
    (univ fields : List String) (parameters : π) (nb_items_threshold nb_workers : Int) :
    Except String (Table ρ) :=
  if nb_workers ≤ 0 then Except.error ("max_workers must be greater than 0") else
  let universe_list := split_list_into_chunks univ
    (best_nb_items_threshold univ.length nb_workers.toNat nb_items_threshold)
  if universe_list.length < 2 then
    Except.ok (internal_get_data fetch univ fields default false)
  else
    Except.ok (aggregate (universe_list.map (fun chunk =>
      internal_get_data fetch chunk fields parameters true)))

/-- `DataProcessor.hybridPoolExecutor_get_data`.  Same executor setup as
`processPoolExecutor_get_data`, but each chunk is handed to
`threadPoolExecutor_get_data` (inside a child process, with the session reopened), and
the fewer-than-2-chunks fallback forwards `universe`, `fields`, `parameters` and
`nb_items_threshold` to `threadPoolExecutor_get_data` in the current process. -/
def hybridPoolExecutor_get_data {π ρ : Type} (fetch : Fetch π ρ) (thread_workers : Nat)
    (univ fields : List String) (parameters : π) (nb_items_threshold nb_workers : Int) :
    Except String (Table ρ) :=
  if nb_workers ≤ 0 then Except.error ("max_workers must be greater than 0") else
  let universe_list := split_list_into_chunks univ
    (best_nb_items_threshold univ.length nb_workers.toNat nb_items_threshold)
  if universe_list.length < 2 then
    Except.ok (threadPoolExecutor_get_data fetch thread_workers univ fields parameters
      nb_items_threshold)
  else
    Except.ok (aggregate (universe_list.map (fun chunk =>
      threadPoolExecutor_get_data fetch thread_workers chunk fields parameters
        nb_items_threshold)))

/-! ## Concrete backend capabilities used as test inputs -/

/-- A backend capability that fails on every attempt. -/
def failFetch : Fetch Unit String :=
  ⟨fun _ _ _ _ => Except.error ("backend down")⟩

/-- A deterministic backend capability returning one row (the identifier itself) per
requested identifier, for any fields, parameters and attempt. -/
def echoFetch : Fetch Unit String :=
  ⟨fun _ u _ _ => Except.ok (u.map (fun s => s))⟩

/-- A backend capability that always succeeds with zero rows. -/
def zeroRowsFetch : Fetch Unit String :=
  ⟨fun _ _ _ _ => Except.ok ([])⟩

/-- Succeeds with one row on the chunk `["A"]`, fails on every other universe. -/
def partialFetch : Fetch Unit String :=
  ⟨fun _ u _ _ => if u = ["A"] then Except.ok (["rowA"]) else Except.error ("down")⟩

/-- A backend capability whose result depends on the `parameters` argument (`π = Bool`,
whose `default` element `false` models the Python default `parameters = {}`). -/
def paramFetch : Fetch Bool String :=
  ⟨fun _ _ _ p => if p then Except.ok (["T"]) else Except.ok (["F"])⟩

/-- A 37-item universe of distinct identifiers. -/
def universe37 : List String := (List.range 37).map (fun i => toString i)

/-! ## Helper lemmas: aggregation -/

lemma foldl_append_eq_flatten {ρ : Type} (l : List (Table ρ)) :
    ∀ acc : Table ρ, l.foldl (fun a r => a ++ r) acc = acc ++ l.flatten := by
  induction l with
  | nil => intro acc; simp
  | cons x xs ih => intro acc; simp [ih, List.append_assoc]

lemma aggregate_eq_flatten {ρ : Type} (l : List (Table ρ)) : aggregate l = l.flatten := by
  simpa using foldl_append_eq_flatten l []

/-! ## Helper lemmas: partitioning -/

lemma map_range'_add {β : Type} (step : Nat) :
    ∀ (k : Nat) (f : Nat → β) (s : Nat),
      (List.range' s k step).map f = (List.range' 0 k step).map (fun i => f (s + i)) := by
  intro k
  induction k with
  | zero => intro f s; simp
  | succ k ih =>
    intro f s
    rw [List.range'_succ, List.range'_succ, List.map_cons, List.map_cons]
    rw [ih f (s + step), ih (fun i => f (s + i)) (0 + step)]
    simp [Nat.add_assoc]

lemma chunk_count_nil (n : Nat) (hn : 0 < n) : ((0 : Nat) + n - 1) / n = 0 := by
  rw [Nat.zero_add]
  exact Nat.div_eq_of_lt (Nat.sub_lt hn Nat.one_pos)

lemma chunk_count_step (n L : Nat) (hn : 0 < n) (hL : 0 < L) :
    (L + n - 1) / n = ((L - n) + n - 1) / n + 1 := by
  rcases Nat.le_total n L with h | h
  · have he : L + n - 1 = ((L - n) + n - 1) + n := by omega
    rw [he, Nat.add_div_right _ hn]
  · have h0 : L - n = 0 := by omega
    rw [h0, chunk_count_nil n hn]
    apply Nat.div_eq_of_lt_le
    · omega
    · omega

lemma slices_flatten {α : Type} (n : Nat) (hn : 0 < n) :
    ∀ (F : Nat) (l : List α), l.length ≤ F →
      ((List.range' 0 ((l.length + n - 1) / n) n).map (fun i => (l.drop i).take n)).flatten = l := by
  intro F
  induction F with
  | zero =>
    intro l hl
    have hnil : l = [] := List.eq_nil_of_length_eq_zero (Nat.le_zero.mp hl)
    subst hnil
    simp [chunk_count_nil n hn]
  | succ F ih =>
    intro l hl
    cases l with
    | nil => simp [chunk_count_nil n hn]
    | cons x xs =>
      have hL : 0 < (x :: xs).length := by simp
      have hdl : ((x :: xs).drop n).length ≤ F := by
        rw [List.length_drop, List.length_cons]
        have hx : xs.length + 1 ≤ F + 1 := by simpa using hl
        omega
      rw [chunk_count_step n (x :: xs).length hn hL, ← List.length_drop n (x :: xs),
        List.range'_succ]
      simp only [Nat.zero_add, List.map_cons, List.flatten_cons, List.drop_zero]
      rw [map_range'_add]
      have hfun : (fun i => (((x :: xs).drop (n + i)).take n))
          = (fun i => ((((x :: xs).drop n).drop i).take n)) := by
        funext i
        rw [List.drop_drop]
      rw [hfun, ih ((x :: xs).drop n) hdl]
      exact List.take_append_drop n (x :: xs)

lemma max_one_toNat_pos (nb : Int) : 0 < (max 1 nb).toNat := by
  have h1 : (1 : Int) ≤ max 1 nb := le_max_left _ _
  omega

lemma split_flatten {α : Type} (items : List α) (nb : Int) :
    (split_list_into_chunks items nb).flatten = items := by
  unfold split_list_into_chunks
  exact slices_flatten _ (max_one_toNat_pos nb) items.length items le_rfl

/-! ## Helper lemmas: the retry loop -/

lemma retryGo_all_fail {ρ : Type} (call : Nat → Except String (Table ρ)) (res : Table ρ)
    (hfail : ∀ j, isFail (call j) = true) :
    ∀ (nb k : Nat), retryGo call k nb res = ⟨res, nb, nb, false⟩ := by
  intro nb
  induction nb with
  | zero => intro k; rfl
  | succ nb ih =>
    intro k
    cases hc : call k with
    | ok v =>
      have h := hfail k
      rw [hc] at h
      simp [isFail] at h
    | error e => simp [retryGo, hc, ih (k + 1)]

lemma retryGo_attempts_le {ρ : Type} (call : Nat → Except String (Table ρ)) (res : Table ρ) :
    ∀ (nb k : Nat), (retryGo call k nb res).attempts ≤ nb := by
  intro nb
  induction nb with
  | zero => intro k; exact Nat.le_refl 0
  | succ nb ih =>
    intro k
    cases hc : call k with
    | ok v => simp [retryGo, hc]
    | error e =>
      simp only [retryGo, hc]
      exact Nat.succ_le_succ (ih (k + 1))

lemma retryGo_succeeds {ρ : Type} (call : Nat → Except String (Table ρ)) (res v : Table ρ) :
    ∀ (j nb k : Nat), j < nb → (∀ i, i < j → isFail (call (k + i)) = true) →
      call (k + j) = Except.ok v → retryGo call k nb res = ⟨v, j + 1, j, true⟩ := by
  intro j
  induction j with
  | zero =>
    intro nb k hj hf hok
    cases nb with
    | zero => exact absurd hj (Nat.lt_irrefl 0)
    | succ m =>
      have hk : call k = Except.ok v := by simpa using hok
      simp [retryGo, hk]
  | succ j ih =>
    intro nb k hj hf hok
    cases nb with
    | zero => exact absurd hj (Nat.not_lt_zero _)
    | succ m =>
      have h0 : isFail (call k) = true := by simpa using hf 0 (Nat.succ_pos j)
      cases hc : call k with
      | ok w =>
        rw [hc] at h0
        simp [isFail] at h0
      | error e =>
        have hrec := ih m (k + 1) (Nat.lt_of_succ_lt_succ hj)
          (fun i hi => by
            have hfi := hf (i + 1) (Nat.succ_lt_succ hi)
            rwa [show k + (i + 1) = k + 1 + i by omega] at hfi)
          (by rwa [show k + (j + 1) = k + 1 + j by omega] at hok)
        simp [retryGo, hc, hrec]

lemma internal_trace_all_fail {π ρ : Type} (fetch : Fetch π ρ) (u f : List String) (p : π)
    (hfail : ∀ k, isFail (fetch.call k u f p) = true) :
    internal_trace fetch u f p = ⟨[], 5, 5, false⟩ :=
  retryGo_all_fail _ _ hfail nb_relaunch_request 0

lemma internal_trace_first_ok {π ρ : Type} (fetch : Fetch π ρ) (u f : List String) (p : π)
    (v : Table ρ) (hok : fetch.call 0 u f p = Except.ok v) :
    internal_trace fetch u f p = ⟨v, 1, 0, true⟩ := by
  have h := retryGo_succeeds (fun k => fetch.call k u f p) [] v 0 nb_relaunch_request 0
    (by decide) (fun i hi => absurd hi (Nat.not_lt_zero i)) (by simpa using hok)
  simpa [internal_trace] using h

lemma internal_get_data_all_fail {π ρ : Type} (fetch : Fetch π ρ) (u f : List String) (p : π)
    (o : Bool) (hfail : ∀ k, isFail (fetch.call k u f p) = true) :
    internal_get_data fetch u f p o = [] := by
  unfold internal_get_data
  rw [internal_trace_all_fail fetch u f p hfail]

lemma internal_get_data_ok {π ρ : Type} (fetch : Fetch π ρ) (u f : List String) (p : π)
    (o : Bool) (v : Table ρ) (hok : fetch.call 0 u f p = Except.ok v) :
    internal_get_data fetch u f p o = v := by
  unfold internal_get_data
  rw [internal_trace_first_ok fetch u f p v hok]

/-! ## Helper lemmas: fan-out strategies -/

lemma threadPool_det {π ρ : Type} (fetch : Fetch π ρ) (row : String → ρ) (f : List String)
    (hdet : ∀ (k : Nat) (c : List String) (q : π), fetch.call k c f q = Except.ok (c.map row)) :
    ∀ (tw : Nat) (u : List String) (p : π) (t : Int),
      threadPoolExecutor_get_data fetch tw u f p t = u.map row := by
  intro tw u p t
  have hfun : (fun chunk => internal_get_data fetch chunk f p false)
      = (fun chunk : List String => chunk.map row) :=
    funext fun c => internal_get_data_ok fetch c f p false (c.map row) (hdet 0 c p)
  show aggregate ((split_list_into_chunks u (best_nb_items_threshold u.length tw t)).map
    (fun chunk => internal_get_data fetch chunk f p false)) = u.map row
  rw [hfun, aggregate_eq_flatten, ← List.map_flatten, split_flatten]

lemma threadPool_all_fail {π ρ : Type} (fetch : Fetch π ρ) (tw : Nat) (u f : List String)
    (p : π) (t : Int)
    (hfail : ∀ (k : Nat) (c : List String), isFail (fetch.call k c f p) = true) :
    threadPoolExecutor_get_data fetch tw u f p t = [] := by
  have hfun : (fun chunk => internal_get_data fetch chunk f p false)
      = (fun _ : List String => ([] : Table ρ)) :=
    funext fun c => internal_get_data_all_fail fetch c f p false (fun k => hfail k c)
  show aggregate ((split_list_into_chunks u (best_nb_items_threshold u.length tw t)).map
    (fun chunk => internal_get_data fetch chunk f p false)) = []
  rw [hfun, aggregate_eq_flatten]
  simp

/-! ## Claim theorems -/

/-- C4: for every universe and every chunk-size argument (hence for every valid
minChunkSize/workerCount combination fed into it), `__split_list_into_chunks` produces
contiguous, non-overlapping chunks that cover the universe exactly once in original
order: the concatenation of the chunks in order equals the universe. -/
theorem split_chunks_concat_eq_universe {α : Type} (items : List α) (nb_chunks : Int) :
    (split_list_into_chunks items nb_chunks).flatten = items :=
  split_flatten items nb_chunks

/-- C8: partitioning the empty universe yields zero chunks, and aggregating an empty
sequence of chunk results yields the empty table rather than an error. -/
theorem empty_universe_empty_result {α ρ : Type} (nb_chunks : Int) :
    split_list_into_chunks ([] : List α) nb_chunks = []
    ∧ aggregate ([] : List (Table ρ)) = emptyTable ρ := by
  constructor
  · unfold split_list_into_chunks
    simp [Nat.div_eq_of_lt (Nat.sub_lt (max_one_toNat_pos nb_chunks) Nat.one_pos)]
  · rfl

/-- C5: the effective chunk size used to partition the universe equals
`max(minChunkSize, ceil(len(universe) / workerCount))` — `ceil_div` is the exact
ceiling of the division, characterized as the least `m` with `lenU ≤ workers * m` —
and it is never below the caller-supplied minimum batch size, for any positive
worker count. -/
theorem effective_chunk_size_spec (lenU workers : Nat) (t : Int) (hw : 0 < workers) :
    best_nb_items_threshold lenU workers t = max t (Int.ofNat (ceil_div lenU workers))
    ∧ (∀ m : Nat, ceil_div lenU workers ≤ m ↔ lenU ≤ workers * m)
    ∧ t ≤ best_nb_items_threshold lenU workers t := by
  refine ⟨max_comm _ _, ?_, le_max_right _ _⟩
  intro m
  have h : ceil_div lenU workers = lenU ⌈/⌉ workers :=
    (Nat.ceilDiv_eq_add_pred_div lenU workers).symm
  rw [h, ceilDiv_le_iff_le_mul hw]

theorem effective_chunk_size_spec_witness :
    best_nb_items_threshold 10 3 2 = max 2 (Int.ofNat (ceil_div 10 3))
    ∧ (ceil_div 10 3 ≤ 4 ↔ 10 ≤ 3 * 4)
    ∧ (2 : Int) ≤ best_nb_items_threshold 10 3 2 :=
  ⟨(effective_chunk_size_spec 10 3 2 (by decide)).1,
   (effective_chunk_size_spec 10 3 2 (by decide)).2.1 4,
   (effective_chunk_size_spec 10 3 2 (by decide)).2.2⟩

/-- C3: `internal_get_data` makes at most 5 backend attempts; if the backend always
fails it makes exactly 5 attempts (not 4 or 6), each failed attempt followed by one
fixed backoff of `backoffMillis = 200` ms; and the first successful attempt — after
`j < 5` failures — returns its table immediately with `j + 1` total attempts, `j`
backoffs, and no further retries. -/
theorem internal_retry_policy {π ρ : Type} (fetch : Fetch π ρ) (u f : List String) (p : π) :
    (internal_trace fetch u f p).attempts ≤ 5
    ∧ nb_relaunch_request = 5
    ∧ backoffMillis = 200
    ∧ ((∀ k, isFail (fetch.call k u f p) = true) →
        (internal_trace fetch u f p).attempts = 5
        ∧ (internal_trace fetch u f p).backoffs = 5)
    ∧ (∀ (j : Nat) (v : Table ρ), j < 5 →
        (∀ i, i < j → isFail (fetch.call i u f p) = true) →
        fetch.call j u f p = Except.ok v →
        (internal_trace fetch u f p).attempts = j + 1
        ∧ (internal_trace fetch u f p).backoffs = j
        ∧ internal_get_data fetch u f p false = v) := by
  refine ⟨retryGo_attempts_le (fun k => fetch.call k u f p) [] nb_relaunch_request 0,
    rfl, rfl, ?_, ?_⟩
  · intro hfail
    rw [internal_trace_all_fail fetch u f p hfail]
    exact ⟨rfl, rfl⟩
  · intro j v hj hf hok
    have ht : internal_trace fetch u f p = ⟨v, j + 1, j, true⟩ :=
      retryGo_succeeds (fun k => fetch.call k u f p) [] v j nb_relaunch_request 0 hj
        (fun i hi => by simpa using hf i hi) (by simpa using hok)
    refine ⟨by rw [ht], by rw [ht], ?_⟩
    unfold internal_get_data
    rw [ht]

theorem internal_retry_policy_witness :
    (internal_trace failFetch ["Z"] [] ()).attempts = 5
    ∧ (internal_trace failFetch ["Z"] [] ()).backoffs = 5 :=
  (internal_retry_policy failFetch ["Z"] [] ()).2.2.2.1 (fun _ => rfl)

/-- C1 counterexample: with a backend that fails on every attempt, `internal_get_data`
exhausts its 5-attempt budget (the `succeed` flag stays `false`) and then returns the
plain empty table as an ordinary result — no `FatalError` (no error value of any kind)
reaches the caller. -/
theorem internal_exhausted_no_error_cex :
    (internal_trace failFetch ["X"] [] ()).succeed = false
    ∧ (internal_trace failFetch ["X"] [] ()).attempts = 5
    ∧ internal_get_data failFetch ["X"] [] () false = emptyTable String :=
  ⟨rfl, rfl, rfl⟩

/-- C1 (amended): for every fetch capability that fails on all attempts,
`internal_get_data` exhausts its 5-attempt budget with `succeed = false`, swallows the
last underlying cause (it is only logged), and returns the initially-created empty
table to the caller as a normal result; no `FatalError` is raised or propagated. -/
theorem internal_exhausted_swallows_failures {π ρ : Type} (fetch : Fetch π ρ)
    (u f : List String) (p : π) (o : Bool)
    (hfail : ∀ k, isFail (fetch.call k u f p) = true) :
    (internal_trace fetch u f p).succeed = false
    ∧ (internal_trace fetch u f p).attempts = 5
    ∧ internal_get_data fetch u f p o = emptyTable ρ := by
  have ht := internal_trace_all_fail fetch u f p hfail
  refine ⟨by rw [ht], by rw [ht], ?_⟩
  unfold internal_get_data
  rw [ht]
  rfl

theorem internal_exhausted_swallows_failures_witness :
    (internal_trace failFetch ["Y"] [] ()).succeed = false
    ∧ (internal_trace failFetch ["Y"] [] ()).attempts = 5
    ∧ internal_get_data failFetch ["Y"] [] () true = emptyTable String :=
  internal_exhausted_swallows_failures failFetch ["Y"] [] () true (fun _ => rfl)

/-- C10: when the backend fails on all 5 attempts, `internal_get_data` returns the
initially-created empty table as a normal result, so at the call site an
exhausted-retries chunk is indistinguishable from a chunk that successfully fetched
zero rows. -/
theorem exhausted_retries_indistinguishable_from_empty {π ρ : Type}
    (fetch fetch2 : Fetch π ρ) (u f : List String) (p : π) (o o2 : Bool)
    (hfail : ∀ k, isFail (fetch.call k u f p) = true)
    (hzero : fetch2.call 0 u f p = Except.ok []) :
    internal_get_data fetch u f p o = emptyTable ρ
    ∧ internal_get_data fetch u f p o = internal_get_data fetch2 u f p o2 := by
  have h1 := internal_get_data_all_fail fetch u f p o hfail
  have h2 := internal_get_data_ok fetch2 u f p o2 [] hzero
  exact ⟨h1, by rw [h1, h2]⟩

theorem exhausted_retries_indistinguishable_witness :
    internal_get_data failFetch ["X1"] [] () false = emptyTable String
    ∧ internal_get_data failFetch ["X1"] [] () false
      = internal_get_data zeroRowsFetch ["X1"] [] () false :=
  exhausted_retries_indistinguishable_from_empty failFetch zeroRowsFetch ["X1"] [] ()
    false false (fun _ => rfl) rfl

/-- C2 counterexample: the universe `["A","B"]` splits into the chunks `["A"]` and
`["B"]`; the backend always fails on `["B"]`, yet every fan-out strategy returns the
lone successful chunk's rows as a normal (silent) success instead of failing the run. -/
theorem fanout_partial_aggregation_cex :
    threadPoolExecutor_get_data partialFetch 2 ["A", "B"] [] () 1 = ["rowA"]
    ∧ processPoolExecutor_get_data partialFetch ["A", "B"] [] () 1 2 = Except.ok (["rowA"])
    ∧ hybridPoolExecutor_get_data partialFetch 2 ["A", "B"] [] () 1 2 = Except.ok (["rowA"]) :=
  ⟨rfl, rfl, rfl⟩

/-- C2 (amended): a fatal per-chunk failure never fails the run: `internal_get_data`
swallows it and substitutes the empty table for that chunk, and each fan-out strategy
returns the aggregation of the remaining (successful) chunks as a normal success.  In
particular, when the backend fails on every chunk and attempt, all three fan-out
strategies return the empty table as an ordinary, silent result. -/
theorem fanout_never_fails_run {π ρ : Type} [Inhabited π] (fetch : Fetch π ρ) (tw : Nat)
    (u f : List String) (p : π) (t w : Int) (hw : 0 < w)
    (hfail : ∀ (k : Nat) (c : List String) (q : π), isFail (fetch.call k c f q) = true) :
    threadPoolExecutor_get_data fetch tw u f p t = emptyTable ρ
    ∧ processPoolExecutor_get_data fetch u f p t w = Except.ok (emptyTable ρ)
    ∧ hybridPoolExecutor_get_data fetch tw u f p t w = Except.ok (emptyTable ρ) := by
  have hthread : ∀ (uu : List String) (q : π) (tt : Int),
      threadPoolExecutor_get_data fetch tw uu f q tt = [] :=
    fun uu q tt => threadPool_all_fail fetch tw uu f q tt (fun k c => hfail k c q)
  have hnot : ¬ (w ≤ 0) := by omega
  refine ⟨hthread u p t, ?_, ?_⟩
  · by_cases hc :
        (split_list_into_chunks u (best_nb_items_threshold u.length w.toNat t)).length < 2
    · simp only [processPoolExecutor_get_data, if_neg hnot, if_pos hc]
      rw [internal_get_data_all_fail fetch u f default false (fun k => hfail k u default)]
      rfl
    · simp only [processPoolExecutor_get_data, if_neg hnot, if_neg hc]
      have hfun : (fun chunk => internal_get_data fetch chunk f p true)
          = (fun _ : List String => ([] : Table ρ)) :=
        funext fun c => internal_get_data_all_fail fetch c f p true (fun k => hfail k c p)
      rw [hfun, aggregate_eq_flatten]
      simp [emptyTable]
  · by_cases hc :
        (split_list_into_chunks u (best_nb_items_threshold u.length w.toNat t)).length < 2
    · simp only [hybridPoolExecutor_get_data, if_neg hnot, if_pos hc]
      rw [hthread u p t]
      rfl
    · simp only [hybridPoolExecutor_get_data, if_neg hnot, if_neg hc]
      have hfun : (fun chunk => threadPoolExecutor_get_data fetch tw chunk f p t)
          = (fun _ : List String => ([] : Table ρ)) :=
        funext fun c => hthread c p t
      rw [hfun, aggregate_eq_flatten]
      simp [emptyTable]

theorem fanout_never_fails_run_witness :
    threadPoolExecutor_get_data failFetch 2 ["C", "D"] [] () 1 = emptyTable String
    ∧ processPoolExecutor_get_data failFetch ["C", "D"] [] () 1 2
      = Except.ok (emptyTable String)
    ∧ hybridPoolExecutor_get_data failFetch 2 ["C", "D"] [] () 1 2
      = Except.ok (emptyTable String) :=
  fanout_never_fails_run failFetch 2 ["C", "D"] [] () 1 2 (by decide)
    (fun _ _ _ => rfl)

/-- C6: with a deterministic fetch capability that returns one row per identifier
(for the run's field set, independently of attempt and parameters), every strategy —
Direct (`internal_get_data`), ThreadFanOut, ProcessFanOut and HybridFanOut, for any
positive worker counts and any threshold — produces the same result: one row per
universe item in universe order, equal to the Direct strategy on the full universe. -/
theorem strategy_equivalence {π ρ : Type} [Inhabited π] (fetch : Fetch π ρ)
    (row : String → ρ) (u f : List String) (p : π) (tw : Nat) (t pw hw : Int)
    (htw : 0 < tw) (hpw : 0 < pw) (hhw : 0 < hw)
    (hdet : ∀ (k : Nat) (c : List String) (q : π), fetch.call k c f q = Except.ok (c.map row)) :
    internal_get_data fetch u f p false = u.map row
    ∧ threadPoolExecutor_get_data fetch tw u f p t = u.map row
    ∧ processPoolExecutor_get_data fetch u f p t pw = Except.ok (u.map row)
    ∧ hybridPoolExecutor_get_data fetch tw u f p t hw = Except.ok (u.map row) := by
  have hthread := threadPool_det fetch row f hdet
  have hint : ∀ (q : π) (uu : List String) (o : Bool),
      internal_get_data fetch uu f q o = uu.map row :=
    fun q uu o => internal_get_data_ok fetch uu f q o (uu.map row) (hdet 0 uu q)
  refine ⟨hint p u false, hthread tw u p t, ?_, ?_⟩
  · have hnot : ¬ (pw ≤ 0) := by omega
    by_cases hc :
        (split_list_into_chunks u (best_nb_items_threshold u.length pw.toNat t)).length < 2
    · simp only [processPoolExecutor_get_data, if_neg hnot, if_pos hc]
      rw [hint default u false]
    · simp only [processPoolExecutor_get_data, if_neg hnot, if_neg hc]
      have hfun : (fun chunk => internal_get_data fetch chunk f p true)
          = (fun chunk : List String => chunk.map row) :=
        funext fun c => hint p c true
      rw [hfun, aggregate_eq_flatten, ← List.map_flatten, split_flatten]
  · have hnot : ¬ (hw ≤ 0) := by omega
    by_cases hc :
        (split_list_into_chunks u (best_nb_items_threshold u.length hw.toNat t)).length < 2
    · simp only [hybridPoolExecutor_get_data, if_neg hnot, if_pos hc]
      rw [hthread tw u p t]
    · simp only [hybridPoolExecutor_get_data, if_neg hnot, if_neg hc]
      have hfun : (fun chunk => threadPoolExecutor_get_data fetch tw chunk f p t)
          = (fun chunk : List String => chunk.map row) :=
        funext fun c => hthread tw c p t
      rw [hfun, aggregate_eq_flatten, ← List.map_flatten, split_flatten]

theorem strategy_equivalence_witness :
    internal_get_data echoFetch universe37 ["A", "B"] () false
      = universe37.map (fun s => s)
    ∧ threadPoolExecutor_get_data echoFetch 4 universe37 ["A", "B"] () 10
      = universe37.map (fun s => s)
    ∧ processPoolExecutor_get_data echoFetch universe37 ["A", "B"] () 10 3
      = Except.ok (universe37.map (fun s => s))
    ∧ hybridPoolExecutor_get_data echoFetch 4 universe37 ["A", "B"] () 10 2
      = Except.ok (universe37.map (fun s => s)) :=
  strategy_equivalence echoFetch (fun s => s) universe37 ["A", "B"] () 4 10 3 2
    (by decide) (by decide) (by decide) (fun _ _ _ => rfl)

/-- C7 counterexample: with a fetch capability whose result depends on `parameters` and
a one-chunk universe, `processPoolExecutor_get_data` does NOT return the result of the
Direct fetch with the run's arguments: the fallback drops the caller's `parameters`
(it calls `internal_get_data(universe=universe, fields=fields)`), so the run with
`parameters = true` returns the `parameters = {}` result. -/
theorem process_fallback_drops_parameters_cex :
    processPoolExecutor_get_data paramFetch ["A"] [] true 800 2 = Except.ok (["F"])
    ∧ internal_get_data paramFetch ["A"] [] true false = ["T"]
    ∧ processPoolExecutor_get_data paramFetch ["A"] [] true 800 2
      ≠ Except.ok (internal_get_data paramFetch ["A"] [] true false) := by
  refine ⟨rfl, rfl, ?_⟩
  intro h
  have h2 : (["F"] : Table String) = (["T"] : Table String) := by
    have hok : (Except.ok (["F"]) : Except String (Table String)) = Except.ok (["T"]) := h
    exact Except.ok.inj hok
  exact absurd h2 (by decide)

/-- C7 (amended): when partitioning yields fewer than 2 chunks,
`processPoolExecutor_get_data` returns exactly the Direct fetch (`internal_get_data`)
on the whole universe with the same fields but the DEFAULT (empty) `parameters` — the
run's `parameters` argument is not forwarded to the fallback — and
`hybridPoolExecutor_get_data` returns exactly `threadPoolExecutor_get_data` on the
whole universe with all run arguments forwarded; no chunk is dispatched to the process
pool in either case. -/
theorem fallback_to_simpler_strategy {π ρ : Type} [Inhabited π] (fetch : Fetch π ρ)
    (tw : Nat) (u f : List String) (p : π) (t w : Int) (hw : 0 < w)
    (hchunks :
      (split_list_into_chunks u (best_nb_items_threshold u.length w.toNat t)).length < 2) :
    processPoolExecutor_get_data fetch u f p t w
      = Except.ok (internal_get_data fetch u f default false)
    ∧ hybridPoolExecutor_get_data fetch tw u f p t w
      = Except.ok (threadPoolExecutor_get_data fetch tw u f p t) := by
  have hnot : ¬ (w ≤ 0) := by omega
  constructor
  · simp only [processPoolExecutor_get_data, if_neg hnot, if_pos hchunks]
  · simp only [hybridPoolExecutor_get_data, if_neg hnot, if_pos hchunks]

theorem fallback_to_simpler_strategy_witness :
    processPoolExecutor_get_data paramFetch ["B"] [] false 800 3
      = Except.ok (internal_get_data paramFetch ["B"] [] default false)
    ∧ hybridPoolExecutor_get_data paramFetch 2 ["B"] [] false 800 3
      = Except.ok (threadPoolExecutor_get_data paramFetch 2 ["B"] [] false 800) :=
  fallback_to_simpler_strategy paramFetch 2 ["B"] [] false 800 3 (by decide) (by decide)

/-- C9 counterexample: a non-positive worker count is NOT clamped to 1: with
`nb_workers = 0`, `ProcessPoolExecutor` construction raises
(`max_workers must be greater than 0`) instead of proceeding, and the outcome differs
from the clamped run with one worker. -/
theorem nonpositive_workers_raise_cex :
    processPoolExecutor_get_data failFetch ["A", "B"] [] () 800 0
      = Except.error ("max_workers must be greater than 0")
    ∧ processPoolExecutor_get_data failFetch ["A", "B"] [] () 800 0
      ≠ processPoolExecutor_get_data failFetch ["A", "B"] [] () 800 1 := by
  refine ⟨rfl, ?_⟩
  intro h
  have h2 : (Except.error ("max_workers must be greater than 0") :
      Except String (Table String)) = Except.ok ([]) := h
  exact Except.noConfusion h2

/-- C9 (amended): a non-positive batch size IS clamped to a safe minimum of 1 at the
partitioning boundary (`n = max(1, nb_chunks)`), and partitioning proceeds, total,
over all integer inputs; but a non-positive worker count is NOT clamped: constructing
`ProcessPoolExecutor(max_workers = nb_workers)` raises `ValueError`, which the
process and hybrid strategies propagate to the caller. -/
theorem clamping_at_partition_boundary {α π ρ : Type} [Inhabited π] (items : List α)
    (nb : Int) (hnb : nb ≤ 0) (fetch : Fetch π ρ) (tw : Nat) (u f : List String)
    (p : π) (t w : Int) (hw : w ≤ 0) :
    split_list_into_chunks items nb = split_list_into_chunks items 1
    ∧ (split_list_into_chunks items nb).flatten = items
    ∧ processPoolExecutor_get_data fetch u f p t w
      = Except.error ("max_workers must be greater than 0")
    ∧ hybridPoolExecutor_get_data fetch tw u f p t w
      = Except.error ("max_workers must be greater than 0") := by
  refine ⟨?_, split_flatten items nb, ?_, ?_⟩
  · unfold split_list_into_chunks
    rw [show (max 1 nb) = 1 from max_eq_left (by omega),
      show (max 1 (1 : Int)) = 1 from max_eq_left (by omega)]
  · simp only [processPoolExecutor_get_data, if_pos hw]
  · simp only [hybridPoolExecutor_get_data, if_pos hw]

theorem clamping_at_partition_boundary_witness :
    split_list_into_chunks ["A", "B", "C"] (-4) = split_list_into_chunks ["A", "B", "C"] 1
    ∧ (split_list_into_chunks ["A", "B", "C"] (-4)).flatten = ["A", "B", "C"]
    ∧ processPoolExecutor_get_data failFetch ["A"] [] () 800 (-1)
      = Except.error ("max_workers must be greater than 0")
    ∧ hybridPoolExecutor_get_data failFetch 2 ["A"] [] () 800 (-1)
      = Except.error ("max_workers must be greater than 0") :=
  clamping_at_partition_boundary ["A", "B", "C"] (-4) (by decide) failFetch 2 ["A"] []
    () 800 (-1) (by decide)

end ParallelProg
